import Mathlib

/-!
Verification development for the ComfyUI-Seed-Tracker plugin package
(`src/__init__.py`, `src/node.py`, `src/utils.py`).

The Python code is shallowly embedded as executable Lean definitions:

* JSON values (the payloads of `json.dump` / `json.load`) are the inductive
  type `Json`.  Object fields are kept as insertion-ordered association
  lists, matching Python `dict` semantics (unique keys, insertion order
  preserved).  Numbers are restricted to integers: every number the package
  writes is a Python `int`.
* The filesystem is a journal of writes `FS` (a list of path/content pairs);
  a lookup returns the most recent write, modelling the blind whole-file
  overwrites performed by the package.  A file's content is either text that
  parses as a JSON value (`jsonF`), plain text that does not parse as JSON
  (`textF` — every text notice written by this package starts with a letter,
  so it never parses), or a CSV file recorded as its sequence of rows
  (`csvF`; `csv.writer` emits exactly one line per `writerow` call).
* `datetime.datetime.now()` is an explicit `now : String` parameter.
* Python exceptions are `Except String`; helpers (`pySubscript`,
  `pyDictGet`, `pyDictItems`, `pyContains`, `pyIterElems`) model the
  corresponding Python operations including the errors they raise.
-/

namespace SeedTrackerRepo

/-- JSON-like values as produced by `json.load` and consumed by `json.dump`.
Numbers are restricted to integers (the package only writes ints). -/
inductive Json where
  | null
  | bool (b : Bool)
  | num (n : Int)
  | str (s : String)
  | arr (elems : List Json)
  | obj (fields : List (String × Json))

/-- First-match lookup in a JSON object's field list (Python `dict` keys are
unique, so first match is the match). -/
def lookupField (fields : List (String × Json)) (k : String) : Option Json :=
  (fields.find? (fun e => e.1 == k)).map Prod.snd

/-- `j[k]`-style lookup when `j` is an object; `none` otherwise. -/
def Json.lookup (j : Json) (k : String) : Option Json :=
  match j with
  | .obj fields => lookupField fields k
  | _ => none

/-- Content of one file on disk. -/
inductive FileContent where
  | jsonF (j : Json)
  | textF (s : String)
  | csvF (rows : List (List Json))

/-- The filesystem as a journal of whole-file writes; later writes win. -/
abbrev FS := List (String × FileContent)

/-- Current content of the file at `p`: the most recent write, if any. -/
def lookupFile (fs : FS) (p : String) : Option FileContent :=
  ((fs.reverse).find? (fun e => e.1 == p)).map Prod.snd

/-- `open(p, 'w')` followed by a full write: append to the journal. -/
def setFile (fs : FS) (p : String) (c : FileContent) : FS :=
  fs ++ [(p, c)]

/-- `utils.save_json(data, path)`: `json.dump(data, f, indent=2)` over a
fresh `open(path, 'w')` — a whole-file overwrite with the serialized value
(2-space indentation does not affect the parsed value). -/
def save_json (fs : FS) (path : String) (data : Json) : FS :=
  setFile fs path (.jsonF data)

/-- A plain-text `open(path, 'w'); f.write(...)` sequence. -/
def writeText (fs : FS) (path : String) (s : String) : FS :=
  setFile fs path (.textF s)

/-- `utils.load_json(path)`: `{}` if the file does not exist, the parsed
value if its contents are valid JSON, `{}` (via the caught
`json.JSONDecodeError`) if they are not. -/
def load_json (fs : FS) (path : String) : Json :=
  match lookupFile fs path with
  | none => .obj []
  | some (.jsonF j) => j
  | some (.textF _) => .obj []
  | some (.csvF _) => .obj []

/-- `os.path.join(dir, file)` for the simple dir/file case used here. -/
def pathJoin (dir file : String) : String :=
  dir ++ "/" ++ file

/-! ### String helpers: Python `needle in haystack` and `str.endswith` -/

/-- Boolean list-prefix test (on characters). -/
def strPrefixOfB : List Char → List Char → Bool
  | [], _ => true
  | _ :: _, [] => false
  | a :: as, b :: bs => a == b && strPrefixOfB as bs

/-- Boolean substring test on character lists. -/
def strInfixB (n : List Char) : List Char → Bool
  | [] => strPrefixOfB n []
  | c :: t => strPrefixOfB n (c :: t) || strInfixB n t

/-- Python `needle in haystack` for strings. -/
def substrB (needle hay : String) : Bool :=
  strInfixB needle.data hay.data

/-- Python `s.endswith(suffix)`. -/
def endsWithB (s suffix : String) : Bool :=
  strPrefixOfB suffix.data.reverse s.data.reverse

/-! ### SeedTracker (`node.py`) -/

/-- Per-label accumulated entry sequences: a Python dict mapping a node
label to a list of seed-entry objects (insertion-ordered, unique keys). -/
abbrev SeedsMap := List (String × List Json)

/-- In-memory state of one `SeedTracker` instance (`__init__` fixes
`output_dir` and `session_id`; `tracked_seeds` starts empty). -/
structure SeedTracker where
  output_dir : String
  tracked_seeds : SeedsMap
  session_id : String

/-- `SeedTracker.RETURN_TYPES = ("INT", "STRING")`. -/
def SeedTracker.RETURN_TYPES : List String := ["INT", "STRING"]

/-- `SeedTracker.RETURN_NAMES = ("seed", "log_path")`. -/
def SeedTracker.RETURN_NAMES : List String := ["seed", "log_path"]

/-- The seed-entry object built by `track_seed`. -/
def mkSeedEntry (seed : Int) (timestamp : String) (notes : String) : Json :=
  .obj [("seed", .num seed), ("timestamp", .str timestamp), ("notes", .str notes)]

/-- Python `if k not in d: d[k] = []` followed by `d[k].append(v)`:
appends `v` to the (unique) entry for `k`, creating it at the end if
absent. -/
def dictAppend : SeedsMap → String → Json → SeedsMap
  | [], k, v => [(k, [v])]
  | e :: rest, k, v =>
    if e.1 = k then (e.1, e.2 ++ [v]) :: rest else e :: dictAppend rest k v

/-- A `SeedsMap` rendered back into the JSON value that `json.dump` sees. -/
def seedsToJson (m : SeedsMap) : Json :=
  .obj (m.map (fun e => (e.1, Json.arr e.2)))

/-- `SeedTracker.save_seed_log`: rewrites the full current log to
`<output_dir>/seed_log_<session_id>.json` and returns that path. -/
def SeedTracker.save_seed_log (t : SeedTracker) (now : String) (fs : FS) :
    FS × String :=
  let log_path := pathJoin t.output_dir ("seed_log_" ++ t.session_id ++ ".json")
  let data : Json := .obj [("session_id", .str t.session_id),
                           ("date", .str now),
                           ("seeds", seedsToJson t.tracked_seeds)]
  (save_json fs log_path data, log_path)

/-- Result of one `track_seed` call: updated instance state, updated
filesystem, and the returned tuple `(seed, log_path)`. -/
structure TrackResult where
  tracker : SeedTracker
  fs : FS
  seed : Int
  log_path : String

/-- `SeedTracker.track_seed(seed, node_id, notes)`: appends a seed entry
under `node_id`, rewrites the full log file, and returns
`(seed, log_path)`. -/
def SeedTracker.track_seed (t : SeedTracker) (seed : Int) (node_id : String)
    (notes : String) (now : String) (fs : FS) : TrackResult :=
  let t' := { t with
    tracked_seeds := dictAppend t.tracked_seeds node_id (mkSeedEntry seed now notes) }
  let r := t'.save_seed_log now fs
  ⟨t', r.1, seed, r.2⟩

/-! ### GlobalSeedTracker (`node.py`) -/

/-- In-memory state of one `GlobalSeedTracker` instance. -/
structure GlobalSeedTracker where
  all_seeds : SeedsMap
  output_dir : String
  session_id : String
  active : Bool

/-- Result of one `start_tracking` call: updated instance state, updated
filesystem, and the single returned string. -/
structure GlobalResult where
  tracker : GlobalSeedTracker
  fs : FS
  ret : String

/-- `GlobalSeedTracker.start_tracking(enabled, include_metadata,
session_name)`.  The `try` block that would hook ComfyUI's sampler is a
no-op: the actual patch assignment is commented out in the source and any
failure of the sampler import is swallowed by `pass`, so the block neither changes state
nor writes anything. -/
def GlobalSeedTracker.start_tracking (g : GlobalSeedTracker) (enabled : Bool)
    (include_metadata : Bool) (session_name : String) (now : String)
    (fs : FS) : GlobalResult :=
  if !enabled then
    ⟨{ g with active := false }, fs, "Tracking disabled"⟩
  else
    let g' := { g with active := true }
    let session_id := if session_name != "" then session_name else g.session_id
    let log_path := pathJoin g.output_dir ("global_seed_log_" ++ session_id ++ ".json")
    let data : Json := .obj [
      ("session_id", .str session_id),
      ("date", .str now),
      ("status", .str (if g'.active then "Active" else "Inactive")),
      ("include_metadata", .bool include_metadata),
      ("message", .str "Global seed tracking activated - using manual tracking mode")]
    ⟨g', save_json fs log_path data, log_path⟩

/-! ### Registries (`node.py` bottom, re-exported by `__init__.py`) -/

/-- The node implementations this package defines. -/
inductive NodeClass where
  | seedTracker
  | globalSeedTracker
  | seedExporter
deriving DecidableEq

/-- `NODE_CLASS_MAPPINGS` from `node.py` (re-exported unchanged by
`__init__.py`). -/
def NODE_CLASS_MAPPINGS : List (String × NodeClass) :=
  [("SeedTracker", .seedTracker),
   ("GlobalSeedTracker", .globalSeedTracker),
   ("SeedExporter", .seedExporter)]

/-- `NODE_DISPLAY_NAME_MAPPINGS` from `node.py` (re-exported unchanged by
`__init__.py`). -/
def NODE_DISPLAY_NAME_MAPPINGS : List (String × String) :=
  [("SeedTracker", "Seed Tracker"),
   ("GlobalSeedTracker", "Global Seed Tracker"),
   ("SeedExporter", "Seed Exporter")]

/-! ### Python operation helpers used by SeedExporter -/

/-- Python truthiness of a parsed JSON value. -/
def truthy : Json → Bool
  | .null => false
  | .bool b => b
  | .num n => n != 0
  | .str s => s != ""
  | .arr es => !es.isEmpty
  | .obj fields => !fields.isEmpty

/-- Python `v[k]` with a string key: the value for an object that has the
key, `KeyError` for an object that lacks it, `TypeError` otherwise. -/
def pySubscript (v : Json) (k : String) : Except String Json :=
  match v with
  | .obj fields =>
    match lookupField fields k with
    | some x => .ok x
    | none => .error ("KeyError: " ++ k)
  | _ => .error "TypeError: value is not subscriptable by a string key"

/-- Python `v.get(k, d)`: total on dicts, `AttributeError` otherwise. -/
def pyDictGet (v : Json) (k : String) (d : Json) : Except String Json :=
  match v with
  | .obj fields => .ok ((lookupField fields k).getD d)
  | _ => .error "AttributeError: value has no attribute get"

/-- Python `v.items()`: the field list on dicts, `AttributeError`
otherwise. -/
def pyDictItems : Json → Except String (List (String × Json))
  | .obj fields => .ok fields
  | _ => .error "AttributeError: value has no attribute items"

/-- Python `k in v` for a string `k`: key test on dicts, element equality
on lists, substring test on strings, `TypeError` on scalars. -/
def pyContains (v : Json) (k : String) : Except String Bool :=
  match v with
  | .obj fields => .ok ((lookupField fields k).isSome)
  | .arr es => .ok (es.any (fun e => match e with | .str s => s == k | _ => false))
  | .str s => .ok (substrB k s)
  | _ => .error "TypeError: argument of this type is not iterable"

/-- Python `for x in v` / `list.extend(v)` element sequence: list elements,
the characters of a string (as one-character strings), the keys of a dict;
`TypeError` on scalars. -/
def pyIterElems : Json → Except String (List Json)
  | .arr es => .ok es
  | .str s => .ok (s.data.map (fun c => .str (String.singleton c)))
  | .obj fields => .ok (fields.map (fun e => Json.str e.1))
  | _ => .error "TypeError: value is not iterable"

/-! ### SeedExporter (`node.py`) and `utils.export_to_csv` -/

/-- The file filter inside `SeedExporter.export_seeds` (and, identically,
`utils.find_seed_logs`): keep names ending in `.json` that contain
`seed_log`, and when a session filter is given (non-empty / not `None`),
that also contain it. -/
def matchesSeedLog (session_id : String) (file : String) : Bool :=
  endsWithB file ".json" && substrB "seed_log" file &&
    (session_id == "" || substrB session_id file)

/-- The absolute paths `export_seeds` collects from the directory listing
(`os.listdir` order is taken as given). -/
def matchedLogPaths (output_dir : String) (listing : List String)
    (session_id : String) : List String :=
  (listing.filter (matchesSeedLog session_id)).map (pathJoin output_dir)

/-- Python `if k not in d: d[k] = []` followed by `d[k].extend(vs)`:
extends the (unique) entry for `k`, creating it at the end if absent. -/
def dictExtend : SeedsMap → String → List Json → SeedsMap
  | [], k, vs => [(k, vs)]
  | e :: rest, k, vs =>
    if e.1 = k then (e.1, e.2 ++ vs) :: rest else e :: dictExtend rest k vs

/-- The inner loop of the merge: `for node, seeds in data["seeds"].items():
... combined["seeds"][node].extend(seeds)`. -/
def mergeItemsLoop (acc : SeedsMap) : List (String × Json) → Except String SeedsMap
  | [] => .ok acc
  | kv :: rest =>
    match pyIterElems kv.2 with
    | .error e => .error e
    | .ok es => mergeItemsLoop (dictExtend acc kv.1 es) rest

/-- Merging one loaded log file into the accumulator:
`if "seeds" in data:` then iterate `data["seeds"].items()`. -/
def mergeOneFile (acc : SeedsMap) (data : Json) : Except String SeedsMap :=
  match pyContains data "seeds" with
  | .error e => .error e
  | .ok c =>
    if c then
      match pySubscript data "seeds" with
      | .error e => .error e
      | .ok seedsVal =>
        match pyDictItems seedsVal with
        | .error e => .error e
        | .ok items => mergeItemsLoop acc items
    else
      .ok acc

/-- The outer merge loop of `export_seeds`: `for log_file in log_files:
data = load_json(log_file); ...`. -/
def mergeLogsLoop (fs : FS) (acc : SeedsMap) : List String → Except String SeedsMap
  | [] => .ok acc
  | f :: rest =>
    match mergeOneFile acc (load_json fs f) with
    | .error e => .error e
    | .ok acc' => mergeLogsLoop fs acc' rest

/-- The combined seeds mapping built from the matched log files, in
listing order, starting from the empty dict. -/
def mergeSeedLogs (fs : FS) (files : List String) : Except String SeedsMap :=
  mergeLogsLoop fs [] files

/-- The `combined_data` dict built by `export_seeds` before rendering. -/
def combinedJson (session_id : String) (now : String) (merged : SeedsMap) : Json :=
  .obj [("session_id", .str session_id),
        ("export_date", .str now),
        ("seeds", seedsToJson merged)]

/-- The fixed CSV header row written by `utils.export_to_csv`. -/
def csvHeader : List Json :=
  [.str "Node ID", .str "Seed", .str "Timestamp", .str "Notes"]

/-- One CSV data row: `[node_id, entry.get('seed', ''),
entry.get('timestamp', ''), entry.get('notes', '')]`. -/
def csvEntryRow (node_id : String) (e : Json) : Except String (List Json) :=
  match pyDictGet e "seed" (.str "") with
  | .error er => .error er
  | .ok s =>
    match pyDictGet e "timestamp" (.str "") with
    | .error er => .error er
    | .ok t =>
      match pyDictGet e "notes" (.str "") with
      | .error er => .error er
      | .ok n => .ok [.str node_id, s, t, n]

/-- The entry loop of `export_to_csv` for one node label. -/
def csvEntriesLoop (node_id : String) (acc : List (List Json)) :
    List Json → Except String (List (List Json))
  | [] => .ok acc
  | en :: rest =>
    match csvEntryRow node_id en with
    | .error er => .error er
    | .ok r => csvEntriesLoop node_id (acc ++ [r]) rest

/-- The label loop of `export_to_csv` over `data['seeds'].items()`. -/
def csvItemsLoop (acc : List (List Json)) :
    List (String × Json) → Except String (List (List Json))
  | [] => .ok acc
  | kv :: rest =>
    match pyIterElems kv.2 with
    | .error er => .error er
    | .ok entries =>
      match csvEntriesLoop kv.1 acc entries with
      | .error er => .error er
      | .ok acc' => csvItemsLoop acc' rest

/-- `utils.export_to_csv(data, path)` as the sequence of rows written:
the header row first, then — when `'seeds' in data` — one row per entry
across every node label, in insertion order. -/
def export_to_csv (data : Json) : Except String (List (List Json)) :=
  match pyContains data "seeds" with
  | .error er => .error er
  | .ok c =>
    if c then
      match pySubscript data "seeds" with
      | .error er => .error er
      | .ok seedsVal =>
        match pyDictItems seedsVal with
        | .error er => .error er
        | .ok items =>
          match csvItemsLoop [] items with
          | .error er => .error er
          | .ok rows => .ok (csvHeader :: rows)
    else
      .ok [csvHeader]

/-! ### Python `str()` for f-string interpolation in the txt rendering -/

/-- Python `repr` of a parsed string: single-quoted unless the string
contains a single quote and no double quote (control-character escaping is
omitted; no string this package renders contains quotes). -/
def pyReprStr (s : String) : String :=
  if s.contains (Char.ofNat 39) && !(s.contains (Char.ofNat 34)) then
    "\"" ++ s ++ "\""
  else
    String.singleton (Char.ofNat 39) ++ s ++ String.singleton (Char.ofNat 39)

mutual

/-- Python `repr` of a parsed JSON value. -/
def pyRepr : Json → String
  | .null => "None"
  | .bool b => if b then "True" else "False"
  | .num n => toString n
  | .str s => pyReprStr s
  | .arr es => "[" ++ pyReprElems es ++ "]"
  | .obj fields => "\x7b" ++ pyReprFields fields ++ "\x7d"

/-- Comma-separated `repr`s of list elements. -/
def pyReprElems : List Json → String
  | [] => ""
  | [e] => pyRepr e
  | e :: rest => pyRepr e ++ ", " ++ pyReprElems rest

/-- Comma-separated `repr`s of dict items. -/
def pyReprFields : List (String × Json) → String
  | [] => ""
  | [kv] => pyReprStr kv.1 ++ ": " ++ pyRepr kv.2
  | kv :: rest => pyReprStr kv.1 ++ ": " ++ pyRepr kv.2 ++ ", " ++ pyReprFields rest

end

/-- Python `str()` as used by f-string interpolation. -/
def pyStr : Json → String
  | .str s => s
  | v => pyRepr v

/-! ### The txt rendering inside `export_seeds` -/

/-- The lines written for one entry of the txt export: seed and timestamp
are subscripted without defaults (`seed_data['seed']`,
`seed_data['timestamp']`), notes is a guarded `seed_data.get('notes')`. -/
def txtEntryBlock (idx : Nat) (e : Json) : Except String String :=
  match pySubscript e "seed" with
  | .error er => .error er
  | .ok s =>
    match pySubscript e "timestamp" with
    | .error er => .error er
    | .ok t =>
      match pyDictGet e "notes" .null with
      | .error er => .error er
      | .ok n =>
        let base := "  Seed #" ++ toString (idx + 1) ++ ": " ++ pyStr s ++ "\n"
          ++ "  Time: " ++ pyStr t ++ "\n"
        let withNotes := if truthy n then base ++ "  Notes: " ++ pyStr n ++ "\n" else base
        .ok (withNotes ++ "\n")

/-- The `for idx, seed_data in enumerate(seeds)` loop for one node. -/
def txtEntriesLoop (acc : String) : List (Nat × Json) → Except String String
  | [] => .ok acc
  | ie :: rest =>
    match txtEntryBlock ie.1 ie.2 with
    | .error er => .error er
    | .ok b => txtEntriesLoop (acc ++ b) rest

/-- One node's section of the txt export: `Node: <label>`, a 40-dash
separator, the entry blocks, then a blank line. -/
def txtNodeSection (node : String) (entries : List Json) : Except String String :=
  match txtEntriesLoop "" entries.enum with
  | .error er => .error er
  | .ok blocks =>
    .ok ("Node: " ++ node ++ "\n" ++ String.mk (List.replicate 40 '-') ++ "\n"
      ++ blocks ++ "\n")

/-- The node loop of the txt export over `combined_data["seeds"].items()`
(each value is a list built by the merge). -/
def txtNodesLoop (acc : String) : SeedsMap → Except String String
  | [] => .ok acc
  | kv :: rest =>
    match txtNodeSection kv.1 kv.2 with
    | .error er => .error er
    | .ok sec => txtNodesLoop (acc ++ sec) rest

/-- The full txt export content: header naming the session and export
date, then the per-node sections. -/
def txtRender (session_id : String) (now : String) (merged : SeedsMap) :
    Except String String :=
  match txtNodesLoop "" merged with
  | .error er => .error er
  | .ok sections =>
    .ok ("Seed Export for Session: " ++ session_id ++ "\n"
      ++ "Generated on: " ++ now ++ "\n\n" ++ sections)

/-- Result of one `export_seeds` call: updated filesystem and the returned
`export_path`. -/
structure ExportResult where
  fs : FS
  export_path : String

/-- `SeedExporter.export_seeds(session_id, format)`.  `listing` is the
`os.listdir(output_dir)` result (order as the OS yields it); `now` is
`datetime.datetime.now()` formatted.  An uncaught Python exception is an
`Except.error`. -/
def SeedExporter.export_seeds (output_dir : String) (listing : List String)
    (session_id : String) (format : String) (now : String) (fs : FS) :
    Except String ExportResult :=
  let log_files := matchedLogPaths output_dir listing session_id
  if log_files.isEmpty then
    let p := pathJoin output_dir ("no_seeds_found_" ++ session_id ++ "." ++ format)
    .ok ⟨writeText fs p ("No seed logs found for session " ++ session_id), p⟩
  else
    match mergeSeedLogs fs log_files with
    | .error er => .error er
    | .ok merged =>
      let combined := combinedJson session_id now merged
      if format == "json" then
        let p := pathJoin output_dir ("seed_export_" ++ session_id ++ ".json")
        .ok ⟨save_json fs p combined, p⟩
      else if format == "csv" then
        let p := pathJoin output_dir ("seed_export_" ++ session_id ++ ".csv")
        match export_to_csv combined with
        | .error er => .error er
        | .ok rows => .ok ⟨setFile fs p (.csvF rows), p⟩
      else if format == "txt" then
        let p := pathJoin output_dir ("seed_export_" ++ session_id ++ ".txt")
        match txtRender session_id now merged with
        | .error er => .error er
        | .ok content => .ok ⟨writeText fs p content, p⟩
      else
        let p := pathJoin output_dir ("unsupported_format_" ++ session_id ++ ".txt")
        .ok ⟨writeText fs p ("Unsupported export format: " ++ format), p⟩

/-! ### Basic filesystem lemmas -/

theorem lookupFile_setFile_self (fs : FS) (p : String) (c : FileContent) :
    lookupFile (setFile fs p c) p = some c := by
  simp [lookupFile, setFile]

theorem load_json_setFile_jsonF (fs : FS) (p : String) (j : Json) :
    load_json (setFile fs p (.jsonF j)) p = j := by
  simp [load_json, lookupFile_setFile_self]

/-! ### Claims C1 — C4 -/

/-- C1 counterexample: `SeedTracker.track_seed` declares exactly two
outputs, `("INT", "STRING")` named `("seed", "log_path")` — there is no
third SeedBundle output. -/
theorem C1_counterexample :
    SeedTracker.RETURN_TYPES.length = 2 ∧
    ¬ SeedTracker.RETURN_TYPES.length = 3 ∧
    SeedTracker.RETURN_NAMES = ["seed", "log_path"] := by
  decide

/-- C1 (amended): every `track_seed(seed, node_id, notes)` call returns
two outputs — the input seed unchanged and the path of the log file just
written — after appending the entry to the in-memory mapping under
`node_id` and rewriting the full log to
`<output_dir>/seed_log_<session_id>.json`. -/
theorem C1_track_seed_two_outputs (t : SeedTracker) (seed : Int)
    (node_id notes now : String) (fs : FS) :
    (t.track_seed seed node_id notes now fs).seed = seed ∧
    (t.track_seed seed node_id notes now fs).log_path
      = pathJoin t.output_dir ("seed_log_" ++ t.session_id ++ ".json") ∧
    (t.track_seed seed node_id notes now fs).tracker.tracked_seeds
      = dictAppend t.tracked_seeds node_id (mkSeedEntry seed now notes) ∧
    lookupFile (t.track_seed seed node_id notes now fs).fs
        (pathJoin t.output_dir ("seed_log_" ++ t.session_id ++ ".json"))
      = some (.jsonF (.obj [("session_id", .str t.session_id),
          ("date", .str now),
          ("seeds", seedsToJson
            (dictAppend t.tracked_seeds node_id (mkSeedEntry seed now notes)))])) := by
  refine ⟨rfl, rfl, rfl, ?_⟩
  simpa [SeedTracker.track_seed, SeedTracker.save_seed_log, save_json] using
    lookupFile_setFile_self fs
      (pathJoin t.output_dir ("seed_log_" ++ t.session_id ++ ".json"))
      (.jsonF (.obj [("session_id", .str t.session_id), ("date", .str now),
        ("seeds", seedsToJson
          (dictAppend t.tracked_seeds node_id (mkSeedEntry seed now notes)))]))

/-- C2 counterexample: a concrete enabled `start_tracking` call writes a
global seed log whose JSON content has status `Active` but contains
neither a `seeds` mapping nor a `total_seeds_tracked` field. -/
theorem C2_counterexample :
    (load_json ((GlobalSeedTracker.start_tracking ⟨[], "out", "S", false⟩
        true true "" "T" []).fs) "out/global_seed_log_S.json").lookup "status"
      = some (.str "Active") ∧
    (load_json ((GlobalSeedTracker.start_tracking ⟨[], "out", "S", false⟩
        true true "" "T" []).fs) "out/global_seed_log_S.json").lookup "seeds"
      = none ∧
    (load_json ((GlobalSeedTracker.start_tracking ⟨[], "out", "S", false⟩
        true true "" "T" []).fs) "out/global_seed_log_S.json").lookup
        "total_seeds_tracked"
      = none := by
  exact ⟨rfl, rfl, rfl⟩

/-- C2 (amended): every enabled `start_tracking` call writes a global seed
log at `<output_dir>/global_seed_log_<session_name-or-session_id>.json`
whose JSON content carries the session id, the date, status `Active`, the
`include_metadata` flag and a fixed message — and no `seeds` mapping and
no `total_seeds_tracked` field. -/
theorem C2_start_tracking_no_seeds_field (g : GlobalSeedTracker)
    (im : Bool) (sn now : String) (fs : FS) :
    (g.start_tracking true im sn now fs).tracker = { g with active := true } ∧
    (g.start_tracking true im sn now fs).ret
      = pathJoin g.output_dir ("global_seed_log_"
          ++ (if sn != "" then sn else g.session_id) ++ ".json") ∧
    load_json (g.start_tracking true im sn now fs).fs
        (pathJoin g.output_dir ("global_seed_log_"
          ++ (if sn != "" then sn else g.session_id) ++ ".json"))
      = .obj [("session_id", .str (if sn != "" then sn else g.session_id)),
          ("date", .str now),
          ("status", .str "Active"),
          ("include_metadata", .bool im),
          ("message", .str "Global seed tracking activated - using manual tracking mode")] ∧
    (load_json (g.start_tracking true im sn now fs).fs
        (pathJoin g.output_dir ("global_seed_log_"
          ++ (if sn != "" then sn else g.session_id) ++ ".json"))).lookup "seeds"
      = none ∧
    (load_json (g.start_tracking true im sn now fs).fs
        (pathJoin g.output_dir ("global_seed_log_"
          ++ (if sn != "" then sn else g.session_id) ++ ".json"))).lookup
        "total_seeds_tracked"
      = none := by
  have hload : load_json (g.start_tracking true im sn now fs).fs
      (pathJoin g.output_dir ("global_seed_log_"
        ++ (if sn != "" then sn else g.session_id) ++ ".json"))
      = .obj [("session_id", .str (if sn != "" then sn else g.session_id)),
          ("date", .str now),
          ("status", .str "Active"),
          ("include_metadata", .bool im),
          ("message", .str "Global seed tracking activated - using manual tracking mode")] := by
    simpa [GlobalSeedTracker.start_tracking, save_json] using
      load_json_setFile_jsonF fs
        (pathJoin g.output_dir ("global_seed_log_"
          ++ (if sn != "" then sn else g.session_id) ++ ".json"))
        (.obj [("session_id", .str (if sn != "" then sn else g.session_id)),
          ("date", .str now),
          ("status", .str "Active"),
          ("include_metadata", .bool im),
          ("message", .str "Global seed tracking activated - using manual tracking mode")])
  refine ⟨rfl, rfl, hload, ?_, ?_⟩
  · rw [hload]; rfl
  · rw [hload]; rfl

/-- C3 counterexample: the registries have no `SeedTrackerBatch` key (and
no "Seed Tracker (Batch)" display name) — they hold three keys, not
four. -/
theorem C3_counterexample :
    ¬ ((NODE_CLASS_MAPPINGS.map Prod.fst).contains "SeedTrackerBatch" = true) ∧
    NODE_CLASS_MAPPINGS.length = 3 ∧
    ¬ ((NODE_DISPLAY_NAME_MAPPINGS.map Prod.snd).contains "Seed Tracker (Batch)" = true) := by
  decide

/-- C3 (amended): the two registries exposed to the host contain exactly
the three keys `SeedTracker`, `GlobalSeedTracker` and `SeedExporter`, with
display names "Seed Tracker", "Global Seed Tracker" and "Seed Exporter"
respectively. -/
theorem C3_registries_three_keys :
    NODE_CLASS_MAPPINGS.map Prod.fst
      = ["SeedTracker", "GlobalSeedTracker", "SeedExporter"] ∧
    NODE_CLASS_MAPPINGS
      = [("SeedTracker", .seedTracker),
         ("GlobalSeedTracker", .globalSeedTracker),
         ("SeedExporter", .seedExporter)] ∧
    NODE_DISPLAY_NAME_MAPPINGS
      = [("SeedTracker", "Seed Tracker"),
         ("GlobalSeedTracker", "Global Seed Tracker"),
         ("SeedExporter", "Seed Exporter")] := by
  decide

/-- C4: every `start_tracking` call with `enabled = false` marks the
tracker inactive, performs no merge and writes nothing: the filesystem and
the instance's internal seeds mapping are exactly as before the call. -/
theorem C4_disabled_leaves_state (g : GlobalSeedTracker) (im : Bool)
    (sn now : String) (fs : FS) :
    (g.start_tracking false im sn now fs).tracker.active = false ∧
    (g.start_tracking false im sn now fs).tracker.all_seeds = g.all_seeds ∧
    (g.start_tracking false im sn now fs).fs = fs ∧
    (g.start_tracking false im sn now fs).ret = "Tracking disabled" := by
  exact ⟨rfl, rfl, rfl, rfl⟩

/-! ### Substring lemmas -/

theorem strPrefixOfB_append_self (n r : List Char) :
    strPrefixOfB n (n ++ r) = true := by
  induction n with
  | nil => rfl
  | cons a as ih => simp [strPrefixOfB, ih]

theorem strInfixB_nil_left (h : List Char) : strInfixB [] h = true := by
  induction h with
  | nil => rfl
  | cons c t _ => simp [strInfixB, strPrefixOfB]

theorem strInfixB_append_self (n r : List Char) :
    strInfixB n (n ++ r) = true := by
  cases n with
  | nil => exact strInfixB_nil_left r
  | cons a as =>
    have h : strPrefixOfB (a :: as) ((a :: as) ++ r) = true :=
      strPrefixOfB_append_self (a :: as) r
    simp only [List.cons_append, strInfixB, List.append_eq] at h ⊢
    rw [h]
    simp

theorem strInfixB_cons_of (n : List Char) (c : Char) (t : List Char)
    (h : strInfixB n t = true) : strInfixB n (c :: t) = true := by
  simp [strInfixB, h]

theorem strInfixB_append_left (pre n h : List Char)
    (hh : strInfixB n h = true) : strInfixB n (pre ++ h) = true := by
  induction pre with
  | nil => exact hh
  | cons c t ih => exact strInfixB_cons_of _ _ _ ih

theorem strInfixB_self (n : List Char) : strInfixB n n = true := by
  have h := strInfixB_append_self n []
  rwa [List.append_nil] at h

theorem substrB_append_right (s pre : String) : substrB s (pre ++ s) = true := by
  unfold substrB
  rw [String.data_append]
  exact strInfixB_append_left pre.data s.data s.data (strInfixB_self s.data)

/-! ### Claim C5 -/

/-- C5: for every session filter and every format value, when no file in
the directory listing matches, `export_seeds` writes the plain-text notice
`no_seeds_found_<session_id>.<format>` (whose content names the session
id), returns that path, and performs no format-specific rendering — the
filesystem changes only by that one text write. -/
theorem C5_no_logs_notice (output_dir : String) (listing : List String)
    (session_id format now : String) (fs : FS)
    (h : listing.filter (matchesSeedLog session_id) = []) :
    SeedExporter.export_seeds output_dir listing session_id format now fs
      = .ok ⟨writeText fs
          (pathJoin output_dir ("no_seeds_found_" ++ session_id ++ "." ++ format))
          ("No seed logs found for session " ++ session_id),
          pathJoin output_dir ("no_seeds_found_" ++ session_id ++ "." ++ format)⟩ ∧
    substrB session_id ("No seed logs found for session " ++ session_id) = true := by
  constructor
  · simp [SeedExporter.export_seeds, matchedLogPaths, h]
  · exact substrB_append_right session_id "No seed logs found for session "

/-- Witness for C5 at a concrete input. -/
theorem C5_no_logs_notice_witness :
    (["foo.txt"].filter (matchesSeedLog "abc") = []) ∧
    (SeedExporter.export_seeds "out" ["foo.txt"] "abc" "json" "T" []
      = .ok ⟨writeText []
          (pathJoin "out" ("no_seeds_found_" ++ "abc" ++ "." ++ "json"))
          ("No seed logs found for session " ++ "abc"),
          pathJoin "out" ("no_seeds_found_" ++ "abc" ++ "." ++ "json")⟩ ∧
     substrB "abc" ("No seed logs found for session " ++ "abc") = true) :=
  ⟨by decide, C5_no_logs_notice "out" ["foo.txt"] "abc" "json" "T" [] (by decide)⟩

/-! ### Claim C6 -/

/-- C6: `load_json` returns the empty mapping when no file exists at the
path, the parsed value when the file's contents are valid JSON, and the
empty mapping — without raising — when the contents fail to parse as JSON
(plain text or a CSV file). -/
theorem C6_load_json_total (fs : FS) (p : String) :
    (lookupFile fs p = none → load_json fs p = .obj []) ∧
    (∀ j : Json, lookupFile fs p = some (.jsonF j) → load_json fs p = j) ∧
    (∀ s : String, lookupFile fs p = some (.textF s) → load_json fs p = .obj []) ∧
    (∀ rows : List (List Json),
      lookupFile fs p = some (.csvF rows) → load_json fs p = .obj []) := by
  refine ⟨?_, ?_, ?_, ?_⟩
  · intro h; simp [load_json, h]
  · intro j h; simp [load_json, h]
  · intro s h; simp [load_json, h]
  · intro rows h; simp [load_json, h]

/-- A tiny concrete filesystem with one valid JSON log and one malformed
text file. -/
def fsC6 : FS :=
  [("a.json", .jsonF (.obj [("x", .num 1)])), ("bad.json", .textF "not json")]

/-- Witness for C6 at concrete inputs (missing file, valid JSON,
malformed text). -/
theorem C6_load_json_total_witness :
    (lookupFile fsC6 "missing.json" = none ∧
      load_json fsC6 "missing.json" = .obj []) ∧
    (lookupFile fsC6 "a.json" = some (.jsonF (.obj [("x", .num 1)])) ∧
      load_json fsC6 "a.json" = .obj [("x", .num 1)]) ∧
    (lookupFile fsC6 "bad.json" = some (.textF "not json") ∧
      load_json fsC6 "bad.json" = .obj []) :=
  ⟨⟨rfl, (C6_load_json_total fsC6 "missing.json").1 rfl⟩,
   ⟨rfl, (C6_load_json_total fsC6 "a.json").2.1 _ rfl⟩,
   ⟨rfl, (C6_load_json_total fsC6 "bad.json").2.2.1 _ rfl⟩⟩

/-! ### Claim C8 -/

/-- Guarded sub-field access with empty-string default, as
`entry.get(k, '')` behaves on a dict. -/
def csvGetD (e : Json) (k : String) : Json :=
  (e.lookup k).getD (.str "")

/-- The data rows the CSV export writes for a seeds mapping: one row per
entry across every node label, in order. -/
def csvDataRows (m : SeedsMap) : List (List Json) :=
  m.flatMap (fun kv => kv.2.map (fun e =>
    [Json.str kv.1, csvGetD e "seed", csvGetD e "timestamp", csvGetD e "notes"]))

/-- Boolean test for a JSON object. -/
def isObjB : Json → Bool
  | .obj _ => true
  | _ => false

theorem csvEntryRow_obj (nid : String) (fields : List (String × Json)) :
    csvEntryRow nid (.obj fields)
      = .ok [Json.str nid, csvGetD (.obj fields) "seed",
          csvGetD (.obj fields) "timestamp", csvGetD (.obj fields) "notes"] := by
  simp [csvEntryRow, pyDictGet, csvGetD, Json.lookup]

theorem csvEntriesLoop_ok (nid : String) (acc : List (List Json))
    (entries : List Json) (h : ∀ e ∈ entries, isObjB e = true) :
    csvEntriesLoop nid acc entries
      = .ok (acc ++ entries.map (fun e =>
          [Json.str nid, csvGetD e "seed", csvGetD e "timestamp", csvGetD e "notes"])) := by
  induction entries generalizing acc with
  | nil => simp [csvEntriesLoop]
  | cons e rest ih =>
    have he : isObjB e = true := h e (List.mem_cons_self e rest)
    cases e with
    | obj fields =>
      rw [csvEntriesLoop, csvEntryRow_obj]
      exact (ih (acc ++ [[Json.str nid, csvGetD (.obj fields) "seed",
          csvGetD (.obj fields) "timestamp", csvGetD (.obj fields) "notes"]])
          (fun x hx => h x (List.mem_cons_of_mem _ hx))).trans (by simp)
    | null => simp [isObjB] at he
    | bool b => simp [isObjB] at he
    | num n => simp [isObjB] at he
    | str s => simp [isObjB] at he
    | arr es => simp [isObjB] at he

theorem csvItemsLoop_ok (acc : List (List Json)) (m : SeedsMap)
    (h : ∀ kv ∈ m, ∀ e ∈ kv.2, isObjB e = true) :
    csvItemsLoop acc (m.map (fun e => (e.1, Json.arr e.2)))
      = .ok (acc ++ csvDataRows m) := by
  induction m generalizing acc with
  | nil => simp [csvItemsLoop, csvDataRows]
  | cons kv rest ih =>
    have hkv : ∀ e ∈ kv.2, isObjB e = true := h kv (List.mem_cons_self kv rest)
    have step : csvItemsLoop acc ((kv :: rest).map (fun e => (e.1, Json.arr e.2)))
        = csvItemsLoop (acc ++ kv.2.map (fun e =>
            [Json.str kv.1, csvGetD e "seed", csvGetD e "timestamp", csvGetD e "notes"]))
            (rest.map (fun e => (e.1, Json.arr e.2))) := by
      rw [List.map_cons, csvItemsLoop]
      rw [show pyIterElems (kv.1, Json.arr kv.2).2 = .ok kv.2 from rfl]
      dsimp only
      rw [csvEntriesLoop_ok kv.1 acc kv.2 hkv]
    rw [step, ih _ (fun x hx => h x (List.mem_cons_of_mem _ hx))]
    simp [csvDataRows]

/-- C8: for every bundle whose entries are objects, `export_to_csv` yields
the header row `[Node ID, Seed, Timestamp, Notes]` followed by exactly one
data row per seed entry across every node label (with empty-string
defaults for missing sub-fields), so the row count is one plus the total
number of entries. -/
theorem C8_csv_rows (session_id now : String) (m : SeedsMap)
    (h : ∀ kv ∈ m, ∀ e ∈ kv.2, isObjB e = true) :
    export_to_csv (combinedJson session_id now m)
      = .ok (csvHeader :: csvDataRows m) ∧
    (csvHeader :: csvDataRows m).length
      = 1 + (m.map (fun kv => kv.2.length)).sum := by
  constructor
  · rw [show export_to_csv (combinedJson session_id now m)
        = match csvItemsLoop [] (m.map (fun e => (e.1, Json.arr e.2))) with
          | .error er => .error er
          | .ok rows => .ok (csvHeader :: rows) from rfl]
    rw [csvItemsLoop_ok [] m h]
    rfl
  · simp only [List.length_cons, csvDataRows, List.length_flatMap,
      Function.comp_def, List.length_map]
    omega

/-- A concrete bundle: one label with two entries, the second entry
missing its timestamp and notes sub-fields. -/
def csvM : SeedsMap :=
  [("n", [.obj [("seed", .num 1), ("timestamp", .str "t1"), ("notes", .str "a")],
          .obj [("seed", .num 2)]])]

/-- Witness for C8: one label with two entries gives exactly 3 rows
(header plus 2 data rows), empty strings standing in for the missing
sub-fields. -/
theorem C8_csv_rows_witness :
    (∀ kv ∈ csvM, ∀ e ∈ kv.2, isObjB e = true) ∧
    export_to_csv (combinedJson "S" "T" csvM) = .ok (csvHeader :: csvDataRows csvM) ∧
    (csvHeader :: csvDataRows csvM).length
      = 1 + (csvM.map (fun kv => kv.2.length)).sum ∧
    1 + (csvM.map (fun kv => kv.2.length)).sum = 3 :=
  ⟨by decide,
   (C8_csv_rows "S" "T" csvM (by decide)).1,
   (C8_csv_rows "S" "T" csvM (by decide)).2,
   by decide⟩

/-! ### Claim C9 -/

/-- Boolean success test on a Python-exception-carrying result. -/
def isOkB {α : Type} : Except String α → Bool
  | .ok _ => true
  | .error _ => false

/-- A log file whose single entry carries a `seed` but no `timestamp`. -/
def fsC9 : FS :=
  [("out/seed_log_X.json", .jsonF (.obj [("seeds",
      .obj [("n", .arr [.obj [("seed", .num 5)]])])]))]

/-- C9: the txt rendering of an entry succeeds exactly when the entry has
both a `seed` and a `timestamp` key (`notes` is a guarded lookup and may
be absent), while the csv row substitutes empty strings for all three and
never fails on a dict entry; concretely, exporting a log whose entry lacks
`timestamp` raises `KeyError` in txt format but succeeds in csv format. -/
theorem C9_txt_partial_csv_total :
    (∀ (fields : List (String × Json)) (idx : Nat),
      isOkB (txtEntryBlock idx (.obj fields))
        = ((lookupField fields "seed").isSome
            && (lookupField fields "timestamp").isSome)) ∧
    (∀ (nid : String) (fields : List (String × Json)),
      csvEntryRow nid (.obj fields)
        = .ok [Json.str nid,
            (lookupField fields "seed").getD (.str ""),
            (lookupField fields "timestamp").getD (.str ""),
            (lookupField fields "notes").getD (.str "")]) ∧
    SeedExporter.export_seeds "out" ["seed_log_X.json"] "" "txt" "T" fsC9
      = .error "KeyError: timestamp" ∧
    isOkB (SeedExporter.export_seeds "out" ["seed_log_X.json"] "" "csv" "T" fsC9)
      = true := by
  refine ⟨?_, ?_, rfl, rfl⟩
  · intro fields idx
    cases h1 : lookupField fields "seed" <;>
      cases h2 : lookupField fields "timestamp" <;>
        simp [txtEntryBlock, pySubscript, pyDictGet, isOkB, h1, h2]
  · intro nid fields
    simp [csvEntryRow, pyDictGet]

/-! ### Claim C10 -/

theorem endsWithB_append_right (s suffix : String) :
    endsWithB (s ++ suffix) suffix = true := by
  unfold endsWithB
  rw [String.data_append, List.reverse_append]
  exact strPrefixOfB_append_self suffix.data.reverse s.data.reverse

theorem substrB_global_seed_log (id : String) :
    substrB "seed_log" ("global_seed_log_" ++ id ++ ".json") = true := by
  have hsplit : ("global_seed_log_" ++ id ++ ".json" : String)
      = "global_" ++ ("seed_log" ++ ("_" ++ id ++ ".json")) := by
    simp [← String.append_assoc]
  rw [hsplit]
  unfold substrB
  rw [String.data_append, String.data_append]
  exact strInfixB_append_left _ _ _ (strInfixB_append_self _ _)

/-- Session log merge skips one file: an auxiliary loop-level lemma. -/
theorem mergeLogsLoop_skip (fs : FS) (f : String)
    (fields : List (String × Json)) (hload : load_json fs f = .obj fields)
    (hnone : lookupField fields "seeds" = none) :
    ∀ (pre : List String) (acc : SeedsMap) (post : List String),
      mergeLogsLoop fs acc (pre ++ f :: post) = mergeLogsLoop fs acc (pre ++ post) := by
  intro pre
  induction pre with
  | nil =>
    intro acc post
    simp [mergeLogsLoop, mergeOneFile, hload, pyContains, hnone]
  | cons p rest ih =>
    intro acc post
    rw [List.cons_append, List.cons_append, mergeLogsLoop, mergeLogsLoop]
    cases hm : mergeOneFile acc (load_json fs p) <;> simp [hm, ih]

/-- C10: the file scan keeps exactly the `.json` names containing the
substring `seed_log` (and the session id when one is given) — in
particular every `global_seed_log_<id>.json` name is matched — and a
matched file whose parsed top-level JSON lacks a `seeds` key is silently
skipped: the merge over any file list containing it equals the merge
without it, and no error arises from it. -/
theorem C10_scan_and_skip :
    (∀ (session_id file : String),
      matchesSeedLog session_id file
        = (endsWithB file ".json" && substrB "seed_log" file
            && (session_id == "" || substrB session_id file))) ∧
    (∀ id : String,
      matchesSeedLog "" ("global_seed_log_" ++ id ++ ".json") = true) ∧
    (∀ (fs : FS) (pre post : List String) (f : String)
        (fields : List (String × Json)),
      load_json fs f = .obj fields → lookupField fields "seeds" = none →
      mergeSeedLogs fs (pre ++ f :: post) = mergeSeedLogs fs (pre ++ post)) := by
  refine ⟨fun _ _ => rfl, ?_, ?_⟩
  · intro id
    unfold matchesSeedLog
    rw [substrB_global_seed_log]
    rw [show ("global_seed_log_" ++ id ++ ".json" : String)
        = ("global_seed_log_" ++ id) ++ ".json" from rfl]
    rw [endsWithB_append_right]
    rfl
  · intro fs pre post f fields hload hnone
    exact mergeLogsLoop_skip fs f fields hload hnone pre [] post

/-- One well-formed log and one log lacking a `seeds` key. -/
def fsC10 : FS :=
  [("a.json", .jsonF (.obj [("seeds", .obj [("n", .arr [.obj [("seed", .num 1)]])])])),
   ("skip.json", .jsonF (.obj [("other", .num 0)]))]

/-- Witness for C10 at concrete inputs. -/
theorem C10_scan_and_skip_witness :
    matchesSeedLog "" ("global_seed_log_" ++ "X" ++ ".json") = true ∧
    mergeSeedLogs fsC10 (["a.json"] ++ "skip.json" :: [])
      = mergeSeedLogs fsC10 (["a.json"] ++ []) :=
  ⟨C10_scan_and_skip.2.1 "X",
   C10_scan_and_skip.2.2 fsC10 ["a.json"] [] "skip.json" [("other", .num 0)] rfl rfl⟩

/-! ### Claim C7: spec-side vocabulary

The claim describes the merged `seeds` mapping of a json export as the
per-label concatenation, in file-listing order, of the contributing log
files' seeds mappings, with labels in first-occurrence order.  The
following definitions state that description directly. -/

/-- The entry sequence a seeds mapping associates with label `L` (empty
when the label is absent). -/
def valueAt : SeedsMap → String → List Json
  | [], _ => []
  | e :: rest, L => if e.1 = L then e.2 else valueAt rest L

/-- The label list of a seeds mapping, in insertion order. -/
def seedsKeys (m : SeedsMap) : List String :=
  m.map Prod.fst

/-- Keep the first occurrence of every element, in order. -/
def firstDedup : List String → List String
  | [] => []
  | k :: rest => k :: firstDedup (rest.filter (fun x => decide (x ≠ k)))
termination_by l => l.length
decreasing_by exact Nat.lt_succ_of_le (List.length_filter_le _ _)

/-- Boolean no-duplicates test. -/
def strNodupB : List String → Bool
  | [] => true
  | k :: rest => decide (k ∉ rest) && strNodupB rest

/-- Boolean test that an association list has pairwise distinct keys (as
every Python dict does). -/
def nodupKeysB {α : Type} (l : List (String × α)) : Bool :=
  strNodupB (l.map Prod.fst)

/-- Boolean test for a JSON array. -/
def isArrB : Json → Bool
  | .arr _ => true
  | _ => false

/-- Elements of a JSON array (empty for non-arrays). -/
def arrElems : Json → List Json
  | .arr es => es
  | _ => []

/-- A log file's JSON is well shaped when it is an object whose `seeds`
field, if present, is an object with pairwise-distinct keys mapping each
label to an array — the shape of every log this package writes and of
every value `json.load` returns for one. -/
def wellShapedLog (j : Json) : Bool :=
  match j with
  | .obj fields =>
    match lookupField fields "seeds" with
    | none => true
    | some (.obj sf) => sf.all (fun kv => isArrB kv.2) && nodupKeysB sf
    | some _ => false
  | _ => false

/-- The seeds mapping carried by a log file's parsed JSON. -/
def seedsOf (j : Json) : SeedsMap :=
  match j with
  | .obj fields =>
    match lookupField fields "seeds" with
    | some (.obj sf) => sf.map (fun kv => (kv.1, arrElems kv.2))
    | _ => []
  | _ => []

/-- The seeds mappings of a list of files, in listing order. -/
def logSeedsMaps (fs : FS) (files : List String) : List SeedsMap :=
  files.map (fun f => seedsOf (load_json fs f))

/-- Per-label concatenation across files, in file-listing order. -/
def labelConcat (ms : List SeedsMap) (L : String) : List Json :=
  (ms.map (fun m => valueAt m L)).flatten

/-- All labels occurring across the files, in first-occurrence order. -/
def allLabels (ms : List SeedsMap) : List String :=
  firstDedup (ms.flatMap seedsKeys)

/-- Merging one seeds mapping into the accumulator, label by label, as
the merge loop's `dictExtend` calls do. -/
def specMergeStep (acc : SeedsMap) (m : SeedsMap) : SeedsMap :=
  m.foldl (fun a kv => dictExtend a kv.1 kv.2) acc

/-- The merge of a list of seeds mappings, in order, from the empty
dict. -/
def specMerge (ms : List SeedsMap) : SeedsMap :=
  ms.foldl specMergeStep []

/-! #### firstDedup lemmas -/

theorem firstDedup_nil : firstDedup [] = [] := by
  rw [firstDedup]

theorem firstDedup_cons (k : String) (rest : List String) :
    firstDedup (k :: rest) = k :: firstDedup (rest.filter (fun x => decide (x ≠ k))) := by
  rw [firstDedup]

theorem firstDedup_filter (p : String → Bool) :
    ∀ l : List String, firstDedup (l.filter p) = (firstDedup l).filter p
  | [] => by simp [firstDedup_nil]
  | k :: r => by
    by_cases h : p k = true
    · rw [show (k :: r).filter p = k :: r.filter p by simp [List.filter_cons, h]]
      rw [firstDedup_cons, firstDedup_cons]
      rw [show (r.filter p).filter (fun x => decide (x ≠ k))
          = (r.filter (fun x => decide (x ≠ k))).filter p by
        rw [List.filter_filter, List.filter_filter]
        exact List.filter_congr (fun a _ => Bool.and_comm _ _)]
      rw [firstDedup_filter p (r.filter (fun x => decide (x ≠ k)))]
      simp [List.filter_cons, h]
    · rw [show (k :: r).filter p = r.filter p by simp [List.filter_cons, h]]
      rw [firstDedup_cons]
      rw [show (k :: firstDedup (r.filter (fun x => decide (x ≠ k)))).filter p
          = (firstDedup (r.filter (fun x => decide (x ≠ k)))).filter p by
        simp [List.filter_cons, h]]
      rw [show (firstDedup (r.filter (fun x => decide (x ≠ k)))).filter p
          = firstDedup ((r.filter (fun x => decide (x ≠ k))).filter p) from
        (firstDedup_filter p (r.filter (fun x => decide (x ≠ k)))).symm]
      rw [List.filter_filter]
      rw [show r.filter (fun a => p a && decide (a ≠ k)) = r.filter p from
        List.filter_congr (fun a _ => by
          by_cases hak : a = k
          · subst hak
            simp [h]
          · simp [hak])]
termination_by l => l.length
decreasing_by
  all_goals exact Nat.lt_succ_of_le (List.length_filter_le _ _)

theorem firstDedup_append :
    ∀ xs ys : List String, firstDedup (xs ++ ys)
      = firstDedup xs ++ (firstDedup ys).filter (fun x => decide (x ∉ xs))
  | [], ys => by simp [firstDedup_nil]
  | x :: xs, ys => by
    rw [List.cons_append, firstDedup_cons, List.filter_append]
    rw [firstDedup_append (xs.filter (fun a => decide (a ≠ x)))
      (ys.filter (fun a => decide (a ≠ x)))]
    rw [firstDedup_cons x xs]
    rw [firstDedup_filter (fun a => decide (a ≠ x)) ys]
    rw [List.cons_append]
    congr 1
    congr 1
    rw [List.filter_filter]
    exact List.filter_congr (fun a _ => by
      by_cases hax : a = x
      · simp [hax]
      · by_cases haxs : a ∈ xs <;> simp [hax, haxs, List.mem_filter])
termination_by xs _ => xs.length
decreasing_by exact Nat.lt_succ_of_le (List.length_filter_le _ _)

theorem firstDedup_of_strNodupB :
    ∀ l : List String, strNodupB l = true → firstDedup l = l
  | [], _ => by simp [firstDedup_nil]
  | k :: r, h => by
    rw [strNodupB, Bool.and_eq_true, decide_eq_true_eq] at h
    rw [firstDedup_cons]
    rw [show r.filter (fun x => decide (x ≠ k)) = r from
      List.filter_eq_self.mpr (fun a ha => by
        simp only [decide_eq_true_eq]
        intro hak
        exact h.1 (hak ▸ ha))]
    rw [firstDedup_of_strNodupB r h.2]

/-! #### valueAt and seedsKeys under dictExtend -/

theorem valueAt_eq_nil_of_not_mem (m : SeedsMap) (L : String)
    (h : L ∉ seedsKeys m) : valueAt m L = [] := by
  induction m with
  | nil => rfl
  | cons e rest ih =>
    simp only [seedsKeys, List.map_cons, List.mem_cons, not_or] at h
    have he : ¬ e.1 = L := fun hh => h.1 hh.symm
    simp only [valueAt, if_neg he]
    exact ih (by simpa [seedsKeys] using h.2)

theorem valueAt_dictExtend (m : SeedsMap) (k : String) (vs : List Json)
    (L : String) :
    valueAt (dictExtend m k vs) L
      = if L = k then valueAt m L ++ vs else valueAt m L := by
  induction m with
  | nil =>
    by_cases h : L = k
    · subst h
      simp [dictExtend, valueAt]
    · simp [dictExtend, valueAt, h, Ne.symm h]
  | cons e rest ih =>
    by_cases he : e.1 = k
    · by_cases hL : L = k
      · subst hL
        simp [dictExtend, valueAt, he]
      · have hEL : ¬ e.1 = L := fun hh => hL (hh ▸ he)
        have hkL : ¬ k = L := fun hh => hL hh.symm
        simp [dictExtend, valueAt, he, hL, hEL, hkL]
    · by_cases hEL : e.1 = L
      · have hLk : ¬ L = k := fun hh => he (hEL.trans hh)
        simp [dictExtend, valueAt, he, hEL, hLk]
      · simp [dictExtend, valueAt, he, hEL, ih]

theorem seedsKeys_dictExtend (m : SeedsMap) (k : String) (vs : List Json) :
    seedsKeys (dictExtend m k vs)
      = if k ∈ seedsKeys m then seedsKeys m else seedsKeys m ++ [k] := by
  induction m with
  | nil => simp [dictExtend, seedsKeys]
  | cons e rest ih =>
    by_cases he : e.1 = k
    · simp [dictExtend, seedsKeys, he]
    · have hke : ¬ k = e.1 := fun hh => he hh.symm
      have hcons : seedsKeys (dictExtend (e :: rest) k vs)
          = e.1 :: seedsKeys (dictExtend rest k vs) := by
        simp [dictExtend, he, seedsKeys]
      by_cases hkr : k ∈ seedsKeys rest
      · have hmem : k ∈ seedsKeys (e :: rest) := by
          simp only [seedsKeys, List.map_cons, List.mem_cons]
          exact Or.inr hkr
        rw [hcons, ih, if_pos hkr, if_pos hmem]
        simp [seedsKeys]
      · have hnot : k ∉ seedsKeys (e :: rest) := by
          simp only [seedsKeys, List.map_cons, List.mem_cons, not_or]
          exact ⟨hke, hkr⟩
        rw [hcons, ih, if_neg hkr, if_neg hnot]
        simp [seedsKeys]

/-! #### valueAt and seedsKeys of the merge -/

theorem valueAt_specMergeStep :
    ∀ (m : SeedsMap) (acc : SeedsMap) (L : String),
      nodupKeysB m = true →
      valueAt (specMergeStep acc m) L = valueAt acc L ++ valueAt m L
  | [], acc, L, _ => by simp [specMergeStep, valueAt]
  | kv :: rest, acc, L, h => by
    simp only [nodupKeysB, List.map_cons, strNodupB, Bool.and_eq_true,
      decide_eq_true_eq] at h
    have hstep : specMergeStep acc (kv :: rest)
        = specMergeStep (dictExtend acc kv.1 kv.2) rest := rfl
    rw [hstep, valueAt_specMergeStep rest (dictExtend acc kv.1 kv.2) L
      (by simp [nodupKeysB, h.2])]
    rw [valueAt_dictExtend]
    by_cases hL : L = kv.1
    · rw [if_pos hL]
      have hnil : valueAt rest L = [] :=
        valueAt_eq_nil_of_not_mem rest L (by
          rw [hL]
          exact h.1)
      have hcons : valueAt (kv :: rest) L = kv.2 := by
        simp [valueAt, if_pos hL.symm]
      rw [hcons, hnil]
      simp
    · rw [if_neg hL]
      have hkL : ¬ kv.1 = L := fun hh => hL hh.symm
      have hcons : valueAt (kv :: rest) L = valueAt rest L := by
        simp [valueAt, hkL]
      rw [hcons]

theorem valueAt_foldl_specMergeStep :
    ∀ (ms : List SeedsMap) (acc : SeedsMap) (L : String),
      (∀ m ∈ ms, nodupKeysB m = true) →
      valueAt (ms.foldl specMergeStep acc) L
        = valueAt acc L ++ (ms.map (fun m => valueAt m L)).flatten
  | [], acc, L, _ => by simp
  | m :: rest, acc, L, h => by
    have hstep : (m :: rest).foldl specMergeStep acc
        = rest.foldl specMergeStep (specMergeStep acc m) := rfl
    rw [hstep, valueAt_foldl_specMergeStep rest (specMergeStep acc m) L
      (fun x hx => h x (List.mem_cons_of_mem _ hx))]
    rw [valueAt_specMergeStep m acc L (h m (List.mem_cons_self m rest))]
    simp

theorem valueAt_specMerge (ms : List SeedsMap) (L : String)
    (h : ∀ m ∈ ms, nodupKeysB m = true) :
    valueAt (specMerge ms) L = labelConcat ms L := by
  rw [specMerge, valueAt_foldl_specMergeStep ms [] L h]
  simp [valueAt, labelConcat]

theorem seedsKeys_specMergeStep :
    ∀ (m : SeedsMap) (acc : SeedsMap),
      nodupKeysB m = true →
      seedsKeys (specMergeStep acc m)
        = seedsKeys acc
          ++ (seedsKeys m).filter (fun x => decide (x ∉ seedsKeys acc))
  | [], acc, _ => by simp [specMergeStep, seedsKeys]
  | kv :: rest, acc, h => by
    simp only [nodupKeysB, List.map_cons, strNodupB, Bool.and_eq_true,
      decide_eq_true_eq] at h
    have hstep : specMergeStep acc (kv :: rest)
        = specMergeStep (dictExtend acc kv.1 kv.2) rest := rfl
    rw [hstep, seedsKeys_specMergeStep rest (dictExtend acc kv.1 kv.2)
      (by simp [nodupKeysB, h.2])]
    have hKD := seedsKeys_dictExtend acc kv.1 kv.2
    by_cases hk : kv.1 ∈ seedsKeys acc
    · rw [if_pos hk] at hKD
      simp only [hKD]
      have hkeys : seedsKeys (kv :: rest) = kv.1 :: seedsKeys rest := by
        simp [seedsKeys]
      rw [hkeys, List.filter_cons]
      rw [if_neg (by simp [hk])]
    · rw [if_neg hk] at hKD
      simp only [hKD]
      have hfilter : (seedsKeys rest).filter
            (fun x => decide (x ∉ seedsKeys acc ++ [kv.1]))
          = (seedsKeys rest).filter (fun x => decide (x ∉ seedsKeys acc)) :=
        List.filter_congr (fun a ha => by
          have hak : a ≠ kv.1 := fun hh => h.1 (hh ▸ ha)
          simp [List.mem_append, hak])
      rw [hfilter]
      have hkeys : seedsKeys (kv :: rest) = kv.1 :: seedsKeys rest := by
        simp [seedsKeys]
      rw [hkeys, List.filter_cons]
      rw [if_pos (by simp [hk])]
      simp

theorem seedsKeys_foldl_specMergeStep :
    ∀ (ms : List SeedsMap) (acc : SeedsMap),
      (∀ m ∈ ms, nodupKeysB m = true) →
      seedsKeys (ms.foldl specMergeStep acc)
        = seedsKeys acc
          ++ (firstDedup (ms.flatMap seedsKeys)).filter
            (fun x => decide (x ∉ seedsKeys acc))
  | [], acc, _ => by simp [firstDedup_nil]
  | m :: rest, acc, h => by
    have hm : nodupKeysB m = true := h m (List.mem_cons_self m rest)
    have hstep : (m :: rest).foldl specMergeStep acc
        = rest.foldl specMergeStep (specMergeStep acc m) := rfl
    rw [hstep, seedsKeys_foldl_specMergeStep rest (specMergeStep acc m)
      (fun x hx => h x (List.mem_cons_of_mem _ hx))]
    have hK := seedsKeys_specMergeStep m acc hm
    simp only [hK]
    rw [List.flatMap_cons, firstDedup_append,
      firstDedup_of_strNodupB (seedsKeys m) hm, List.filter_append,
      ← List.append_assoc]
    congr 1
    rw [List.filter_filter]
    exact List.filter_congr (fun a _ => by
      by_cases h1 : a ∈ seedsKeys acc <;> by_cases h2 : a ∈ seedsKeys m <;>
        simp [List.mem_append, List.mem_filter, h1, h2])

theorem seedsKeys_specMerge (ms : List SeedsMap)
    (h : ∀ m ∈ ms, nodupKeysB m = true) :
    seedsKeys (specMerge ms) = allLabels ms := by
  rw [specMerge, seedsKeys_foldl_specMergeStep ms [] h]
  simp [seedsKeys, allLabels]


/-! #### The code's merge loops refine specMerge on well-shaped logs -/

theorem mergeItemsLoop_ok :
    ∀ (sf : List (String × Json)) (acc : SeedsMap),
      (∀ kv ∈ sf, isArrB kv.2 = true) →
      mergeItemsLoop acc sf
        = .ok (specMergeStep acc (sf.map (fun kv => (kv.1, arrElems kv.2))))
  | [], acc, _ => by simp [mergeItemsLoop, specMergeStep]
  | kv :: rest, acc, h => by
    have hkv : isArrB kv.2 = true := h kv (List.mem_cons_self kv rest)
    cases hv : kv.2 with
    | arr es =>
      rw [mergeItemsLoop, hv]
      rw [show pyIterElems (Json.arr es) = .ok es from rfl]
      dsimp only
      rw [mergeItemsLoop_ok rest (dictExtend acc kv.1 es)
        (fun x hx => h x (List.mem_cons_of_mem _ hx))]
      simp [specMergeStep, hv, arrElems]
    | null => simp [isArrB, hv] at hkv
    | bool b => simp [isArrB, hv] at hkv
    | num n => simp [isArrB, hv] at hkv
    | str s => simp [isArrB, hv] at hkv
    | obj fields => simp [isArrB, hv] at hkv

theorem mergeOneFile_ok (acc : SeedsMap) (j : Json)
    (h : wellShapedLog j = true) :
    mergeOneFile acc j = .ok (specMergeStep acc (seedsOf j)) := by
  cases j with
  | obj fields =>
    cases hlk : lookupField fields "seeds" with
    | none =>
      simp [mergeOneFile, pyContains, hlk, seedsOf, specMergeStep]
    | some v =>
      cases v with
      | obj sf =>
        have hall : ∀ kv ∈ sf, isArrB kv.2 = true := by
          simp only [wellShapedLog, hlk, Bool.and_eq_true, List.all_eq_true] at h
          exact fun kv hkv => h.1 kv hkv
        rw [show mergeOneFile acc (.obj fields)
            = mergeItemsLoop acc sf by
          simp [mergeOneFile, pyContains, hlk, pySubscript, pyDictItems]]
        rw [mergeItemsLoop_ok sf acc hall]
        rw [show seedsOf (.obj fields)
            = sf.map (fun kv => (kv.1, arrElems kv.2)) by
          simp [seedsOf, hlk]]
      | null => simp [wellShapedLog, hlk] at h
      | bool b => simp [wellShapedLog, hlk] at h
      | num n => simp [wellShapedLog, hlk] at h
      | str s => simp [wellShapedLog, hlk] at h
      | arr es => simp [wellShapedLog, hlk] at h
  | null => simp [wellShapedLog] at h
  | bool b => simp [wellShapedLog] at h
  | num n => simp [wellShapedLog] at h
  | str s => simp [wellShapedLog] at h
  | arr es => simp [wellShapedLog] at h

theorem mergeLogsLoop_ok (fs : FS) :
    ∀ (files : List String) (acc : SeedsMap),
      (∀ f ∈ files, wellShapedLog (load_json fs f) = true) →
      mergeLogsLoop fs acc files
        = .ok ((logSeedsMaps fs files).foldl specMergeStep acc)
  | [], acc, _ => by simp [mergeLogsLoop, logSeedsMaps]
  | f :: rest, acc, h => by
    rw [mergeLogsLoop]
    rw [mergeOneFile_ok acc (load_json fs f) (h f (List.mem_cons_self f rest))]
    dsimp only
    rw [mergeLogsLoop_ok fs rest (specMergeStep acc (seedsOf (load_json fs f)))
      (fun x hx => h x (List.mem_cons_of_mem _ hx))]
    simp [logSeedsMaps]

theorem mergeSeedLogs_ok (fs : FS) (files : List String)
    (h : ∀ f ∈ files, wellShapedLog (load_json fs f) = true) :
    mergeSeedLogs fs files = .ok (specMerge (logSeedsMaps fs files)) := by
  rw [mergeSeedLogs, mergeLogsLoop_ok fs files [] h]
  rfl

/-- Every seeds mapping extracted from a well-shaped log has
pairwise-distinct keys. -/
theorem nodupKeysB_seedsOf (j : Json) (h : wellShapedLog j = true) :
    nodupKeysB (seedsOf j) = true := by
  cases j with
  | obj fields =>
    cases hlk : lookupField fields "seeds" with
    | none => simp [seedsOf, hlk, nodupKeysB, strNodupB]
    | some v =>
      cases v with
      | obj sf =>
        simp only [wellShapedLog, hlk, Bool.and_eq_true] at h
        rw [show seedsOf (.obj fields)
            = sf.map (fun kv => (kv.1, arrElems kv.2)) by
          simp [seedsOf, hlk]]
        rw [show nodupKeysB (sf.map (fun kv => (kv.1, arrElems kv.2)))
            = nodupKeysB sf by
          simp [nodupKeysB, List.map_map, Function.comp_def]]
        exact h.2
      | null => simp [wellShapedLog, hlk] at h
      | bool b => simp [wellShapedLog, hlk] at h
      | num n => simp [wellShapedLog, hlk] at h
      | str s => simp [wellShapedLog, hlk] at h
      | arr es => simp [wellShapedLog, hlk] at h
  | null => simp [wellShapedLog] at h
  | bool b => simp [wellShapedLog] at h
  | num n => simp [wellShapedLog] at h
  | str s => simp [wellShapedLog] at h
  | arr es => simp [wellShapedLog] at h

/-! #### Claim C7 -/

/-- C7: round-trip — when at least one log file matches the session
filter and every matched log is well shaped (the shape `json.load` yields
for any log this package writes), exporting with format `json` writes the
combined bundle to `seed_export_<session_id>.json`, and loading that file
back yields a `seeds` mapping equal to the per-label concatenation, in
file-listing order, of the contributing logs' seeds mappings: its keys are
all labels in first-occurrence order and each label's sequence is the
concatenation of that label's sequences across the files. -/
theorem C7_json_round_trip (output_dir : String) (listing : List String)
    (session_id now : String) (fs : FS)
    (hne : matchedLogPaths output_dir listing session_id ≠ [])
    (hws : ∀ f ∈ matchedLogPaths output_dir listing session_id,
      wellShapedLog (load_json fs f) = true) :
    ∃ M : SeedsMap,
      SeedExporter.export_seeds output_dir listing session_id "json" now fs
        = .ok ⟨save_json fs
            (pathJoin output_dir ("seed_export_" ++ session_id ++ ".json"))
            (combinedJson session_id now M),
            pathJoin output_dir ("seed_export_" ++ session_id ++ ".json")⟩ ∧
      (load_json
          (save_json fs
            (pathJoin output_dir ("seed_export_" ++ session_id ++ ".json"))
            (combinedJson session_id now M))
          (pathJoin output_dir ("seed_export_" ++ session_id ++ ".json"))).lookup
          "seeds"
        = some (seedsToJson M) ∧
      seedsKeys M
        = allLabels (logSeedsMaps fs (matchedLogPaths output_dir listing session_id)) ∧
      (∀ L : String,
        valueAt M L
          = labelConcat (logSeedsMaps fs (matchedLogPaths output_dir listing session_id)) L) := by
  refine ⟨specMerge (logSeedsMaps fs (matchedLogPaths output_dir listing session_id)),
    ?_, ?_, ?_, ?_⟩
  · have hie : (matchedLogPaths output_dir listing session_id).isEmpty = false := by
      cases hc : matchedLogPaths output_dir listing session_id with
      | nil => exact absurd hc hne
      | cons a l => rfl
    rw [SeedExporter.export_seeds, hie]
    simp only [Bool.false_eq_true, if_false]
    rw [mergeSeedLogs_ok fs (matchedLogPaths output_dir listing session_id) hws]
    rfl
  · rw [save_json, load_json_setFile_jsonF]
    rfl
  · exact seedsKeys_specMerge _ (fun m hm => by
      obtain ⟨f, hf, rfl⟩ := List.mem_map.mp hm
      exact nodupKeysB_seedsOf _ (hws f hf))
  · intro L
    exact valueAt_specMerge _ L (fun m hm => by
      obtain ⟨f, hf, rfl⟩ := List.mem_map.mp hm
      exact nodupKeysB_seedsOf _ (hws f hf))

/-- Two concrete session logs sharing the label `n`. -/
def fsC7 : FS :=
  [("out/seed_log_A.json", .jsonF (.obj [("session_id", .str "A"),
      ("seeds", .obj [("n", .arr [.obj [("seed", .num 1)]])])])),
   ("out/seed_log_B.json", .jsonF (.obj [("seeds",
      .obj [("n", .arr [.obj [("seed", .num 2)]]),
            ("m", .arr [.obj [("seed", .num 3)]])])]))]

/-- Witness for C7 at a concrete two-file input. -/
theorem C7_json_round_trip_witness :
    matchedLogPaths "out" ["seed_log_A.json", "seed_log_B.json"] "" ≠ [] ∧
    (∀ f ∈ matchedLogPaths "out" ["seed_log_A.json", "seed_log_B.json"] "",
      wellShapedLog (load_json fsC7 f) = true) ∧
    (∃ M : SeedsMap,
      SeedExporter.export_seeds "out" ["seed_log_A.json", "seed_log_B.json"]
          "" "json" "T" fsC7
        = .ok ⟨save_json fsC7
            (pathJoin "out" ("seed_export_" ++ "" ++ ".json"))
            (combinedJson "" "T" M),
            pathJoin "out" ("seed_export_" ++ "" ++ ".json")⟩ ∧
      (load_json
          (save_json fsC7
            (pathJoin "out" ("seed_export_" ++ "" ++ ".json"))
            (combinedJson "" "T" M))
          (pathJoin "out" ("seed_export_" ++ "" ++ ".json"))).lookup "seeds"
        = some (seedsToJson M) ∧
      seedsKeys M
        = allLabels (logSeedsMaps fsC7
            (matchedLogPaths "out" ["seed_log_A.json", "seed_log_B.json"] "")) ∧
      (∀ L : String,
        valueAt M L
          = labelConcat (logSeedsMaps fsC7
              (matchedLogPaths "out" ["seed_log_A.json", "seed_log_B.json"] "")) L)) :=
  ⟨by decide, by decide,
   C7_json_round_trip "out" ["seed_log_A.json", "seed_log_B.json"] "" "T" fsC7
     (by decide) (by decide)⟩

end SeedTrackerRepo
